import Mathlib

/-!
Verification development for the `remindme` reminder-scheduling tool.

The Python sources (`remindme/parsers.py`, `remindme/backends.py`,
`remindme/utils.py`) are shallowly embedded below.  Strings are modelled as
their ASCII character lists (`String` in Lean), machine integers as `Nat`/`Int`
(Python integers are unbounded, so no wrap-around modelling is needed), and
fallible code paths (`die(...)`, which raises `SystemExit`) as `Except` errors.
External collaborators (the `dateutil` free-form parser, `shutil.which`
availability probes) are passed in as explicit parameters, since they are not
part of this repository.
-/

namespace Remindme

deriving instance DecidableEq for Except

/-! ## Python string primitives (ASCII model)

Models of the CPython `str` methods used by the sources: `str.strip()`,
`str.lower()`, `str.isdigit()`, `str.split()` and `int(...)` conversion,
restricted to ASCII text (the inputs the tool manipulates). -/

/-- Whitespace characters recognised by `str.strip()` / `str.split()`
(ASCII subset). -/
def pyIsSpace (c : Char) : Bool :=
  c = ' ' || c = Char.ofNat 9 || c = Char.ofNat 10 || c = Char.ofNat 13 ||
  c = Char.ofNat 11 || c = Char.ofNat 12

/-- Decimal digit test, as used by `str.isdigit()` on ASCII text. -/
def pyIsDigit (c : Char) : Bool :=
  48 ≤ c.toNat && c.toNat ≤ 57

/-- ASCII lower-casing of one character, as done by `str.lower()`. -/
def pyLowerChar (c : Char) : Char :=
  if 65 ≤ c.toNat && c.toNat ≤ 90 then Char.ofNat (c.toNat + 32) else c

/-- List-level model of `str.strip()`: drop whitespace from both ends. -/
def pyStripL (l : List Char) : List Char :=
  ((l.dropWhile pyIsSpace).reverse.dropWhile pyIsSpace).reverse

/-- Model of `str.strip()`. -/
def pyStrip (s : String) : String :=
  String.mk (pyStripL s.data)

/-- Model of `str.lower()` (ASCII). -/
def pyLower (s : String) : String :=
  String.mk (s.data.map pyLowerChar)

/-- Model of `str.isdigit()`: true iff the string is non-empty and every
character is a decimal digit. -/
def pyIsDigitStr (s : String) : Bool :=
  !s.data.isEmpty && s.data.all pyIsDigit

/-- Numeric value of a digit character. -/
def pyDigitVal (c : Char) : Nat :=
  c.toNat - 48

/-- Value of a big-endian digit-character list, most significant first. -/
def digitsToNat (l : List Char) : Nat :=
  l.foldl (fun a c => a * 10 + pyDigitVal c) 0

/-- Model of Python `int(s)`: `some` value on an optionally signed string of
decimal digits surrounded by optional whitespace, `none` (a `ValueError` in
Python) otherwise.  On the modelled character universe the decimal digits are
exactly the ASCII ones, so `none` on a superscript digit matches `int()`
raising; underscore digit separators are not modelled (`str.isdigit` rejects
them, so no call site can reach them). -/
def pyInt? (s : String) : Option Int :=
  match pyStripL s.data with
  | [] => none
  | c :: rest =>
    if c = '+' then
      if rest ≠ [] ∧ rest.all pyIsDigit then some ((digitsToNat rest : Int)) else none
    else if c = '-' then
      if rest ≠ [] ∧ rest.all pyIsDigit then some (-(digitsToNat rest : Int)) else none
    else
      if (c :: rest).all pyIsDigit then some ((digitsToNat (c :: rest) : Int)) else none

/-! ## Duration parsing (`parsers.parse_duration`)

`die(msg)` raises `SystemExit("error: " + msg)`; each distinct `die` call site
of `parse_duration` is modelled by its own error constructor, so the
distinguishable diagnostics of the source are distinguishable values here. -/

/-- Error taxonomy of `parse_duration`, one constructor per `die` call site,
plus `internalInt`, which models the `int()` conversion raising an uncaught
`ValueError` after the `isdigit` guard passed (reachable with non-decimal
Unicode digit characters; see `parse_duration_u`). -/
inductive DurErr where
  | empty
  | invalidShape
  | nonPositive
  | badUnit
  | tooLarge
  | internalInt
deriving DecidableEq, Repr

/-- Seconds per unit letter, from the `match unit` statement of
`parse_duration` (`timedelta(seconds|minutes|hours|days = n)`). -/
def unitSeconds (u : Char) : Option Nat :=
  if u = 's' then some 1
  else if u = 'm' then some 60
  else if u = 'h' then some 3600
  else if u = 'd' then some 86400
  else none

/-- Body of `parse_duration` once the non-empty normalised text has been split
into `nStr = text[:-1]` and `u = text[-1]`: the `unit not in {...} or not
n_str.isdigit()` guard, the `int` conversion, the `n <= 0` check, the unit
`match`, and the 365-day bound (`delta > timedelta(days=365)` compares equal
to comparing whole-second counts). -/
def parse_duration_core (nStr : List Char) (u : Char) : Except DurErr Nat :=
  if (u = 's' || u = 'm' || u = 'h' || u = 'd') && pyIsDigitStr (String.mk nStr) then
    match pyInt? (String.mk nStr) with
    | none => .error .internalInt
    | some n =>
      if n ≤ 0 then .error .nonPositive
      else
        match unitSeconds u with
        | none => .error .badUnit
        | some f =>
          if 365 * 86400 < n.toNat * f then .error .tooLarge
          else .ok (n.toNat * f)
  else .error .invalidShape

/-- Embedding of `parsers.parse_duration`.  The result is the parsed span in
whole seconds (the `timedelta` held by the Python function is always a whole
number of seconds there).  `text[:-1]` and `text[-1]` are realised as
`List.dropLast` and `List.getLast`. -/
def parse_duration (text : String) : Except DurErr Nat :=
  if ht : (pyLower (pyStrip text)).data = [] then .error .empty
  else
    parse_duration_core ((pyLower (pyStrip text)).data.dropLast)
      ((pyLower (pyStrip text)).data.getLast ht)

/-! ## Duration parsing with the Unicode-aware digit guard

CPython's `str.isdigit` is wider than the decimal digits `int()` accepts: it
is also true of characters with Unicode Numeric_Type=Digit, e.g. the Latin-1
superscript digits U+00B9, U+00B2, U+00B3, on which `int()` raises
`ValueError`.  The variant below models `parse_duration` with that wider
guard; the extended character universe is ASCII plus those three superscript
digits (non-ASCII decimal digits, which `int()` does accept, behave like
ASCII digits for every property considered here and are left out). -/

/-- Model of `str.isdigit()` on the extended universe: ASCII decimal digits
plus the Latin-1 superscript digits one, two, three (code points 185, 178,
179), which `str.isdigit` accepts although `int()` rejects them. -/
def pyIsDigitU (c : Char) : Bool :=
  pyIsDigit c || c = Char.ofNat 178 || c = Char.ofNat 179 || c = Char.ofNat 185

/-- Model of `str.isdigit()` on whole strings, Unicode-aware. -/
def pyIsDigitStrU (s : String) : Bool :=
  !s.data.isEmpty && s.data.all pyIsDigitU

/-- Body of `parse_duration` with the `isdigit` guard modelled Unicode-aware;
`pyInt?` (which accepts exactly the decimal digits of the universe) is
unchanged, so the `internalInt` outcome is reached exactly when the guard
passes and `int()` raises. -/
def parse_duration_core_u (nStr : List Char) (u : Char) : Except DurErr Nat :=
  if (u = 's' || u = 'm' || u = 'h' || u = 'd') && pyIsDigitStrU (String.mk nStr) then
    match pyInt? (String.mk nStr) with
    | none => .error .internalInt
    | some n =>
      if n ≤ 0 then .error .nonPositive
      else
        match unitSeconds u with
        | none => .error .badUnit
        | some f =>
          if 365 * 86400 < n.toNat * f then .error .tooLarge
          else .ok (n.toNat * f)
  else .error .invalidShape

/-- Embedding of `parsers.parse_duration` with the Unicode-aware `isdigit`
guard (`str.strip` and `str.lower` leave the superscript digits alone, so
those models are unchanged). -/
def parse_duration_u (text : String) : Except DurErr Nat :=
  if ht : (pyLower (pyStrip text)).data = [] then .error .empty
  else
    parse_duration_core_u ((pyLower (pyStrip text)).data.dropLast)
      ((pyLower (pyStrip text)).data.getLast ht)

/-! ## Systemd duration formatting (`parsers.format_systemd_duration`) -/

/-- Error of `format_systemd_duration` (its single `die` call site). -/
inductive FmtErr where
  | nonPositive
deriving DecidableEq, Repr

/-- Embedding of `parsers.format_systemd_duration`.  The argument is
`int(delta.total_seconds())`, the whole-second count of the input `timedelta`
(truncated toward zero, hence `Int`).  After the positivity guard the Python
`//` and `%` agree with `Nat` division on `seconds.toNat`. -/
def format_systemd_duration (seconds : Int) : Except FmtErr String :=
  if seconds ≤ 0 then .error .nonPositive
  else
    let s : Nat := seconds.toNat
    if s % 86400 = 0 then .ok (toString (s / 86400) ++ "d")
    else if s % 3600 = 0 then .ok (toString (s / 3600) ++ "h")
    else if s % 60 = 0 then .ok (toString (s / 60) ++ "m")
    else .ok (toString s ++ "s")

/-! ## Shell quoting (`backends._build_notify_shell_command`, `shlex.quote`)

`shlex.quote` (CPython `shlex.py`) returns the string unchanged when every
character matches the class of ASCII word characters plus `_@%+=:,.` and
slash and hyphen (the complement of `_find_unsafe`
under `re.ASCII`), returns two single quotes for the empty string, and
otherwise wraps the string in single quotes after replacing every single
quote by the five-character sequence quote, double-quote, quote,
double-quote, quote.  Quote characters are written via their code points to
keep the embedding readable. -/

/-- Single-quote character. -/
def sqc : Char := Char.ofNat 39

/-- Double-quote character. -/
def dqc : Char := Char.ofNat 34

/-- Backslash character. -/
def bsc : Char := Char.ofNat 92

/-- Backtick character. -/
def btc : Char := Char.ofNat 96

/-- Dollar character. -/
def dlc : Char := Char.ofNat 36

/-- Characters `shlex.quote` leaves unquoted: ASCII alphanumerics and
`_@%+=:,.` plus slash and hyphen (the complement of `_find_unsafe`). -/
def shlexSafe (c : Char) : Bool :=
  (48 ≤ c.toNat && c.toNat ≤ 57) || (65 ≤ c.toNat && c.toNat ≤ 90) ||
  (97 ≤ c.toNat && c.toNat ≤ 122) ||
  c = '_' || c = '@' || c = '%' || c = '+' || c = '=' || c = ':' ||
  c = ',' || c = '.' || c = '/' || c = '-'

/-- Expansion of one character under `s.replace("'", "'\"'\"'")` inside the
quoted branch of `shlex.quote`. -/
def escSq (c : Char) : List Char :=
  if c = sqc then [sqc, dqc, sqc, dqc, sqc] else [c]

/-- List-level `shlex.quote`. -/
def shQuoteL (s : List Char) : List Char :=
  if s = [] then [sqc, sqc]
  else if s.all shlexSafe then s
  else sqc :: (s.flatMap escSq ++ [sqc])

/-- Model of `shlex.quote`. -/
def shQuote (s : String) : String :=
  String.mk (shQuoteL s.data)

/-- Embedding of `backends._build_notify_shell_command`:
`" ".join(["notify-send", quote(title), quote(message)])`. -/
def build_notify_shell_command (title message : String) : String :=
  "notify-send" ++ " " ++ shQuote title ++ " " ++ shQuote message

/-! ## POSIX shell interpretation model

A conservative model of how a POSIX shell reads one line as a simple
command.  The scanner walks the characters with a quoting state (unquoted,
inside single quotes, inside double quotes) and accumulates words.  It
returns `some words` only when the line consists of literal words separated
by unquoted blanks: any character that could have a non-literal meaning —
command separators (`;`, `&`, `|`, newline), redirections, globs,
command/parameter expansion (the dollar character or a backtick, anywhere
they are live), backslashes, or an unterminated quote — yields `none`.
Thus `shellFields line = some ws` means a POSIX shell executes exactly the
single simple command `ws` for this line, with every word taken literally.
In unquoted position only the `shlexSafe` characters are accepted as
literal; this is sound for command lines whose first word is a fixed
command name, since the only `shlexSafe` character with a position-dependent
meaning (`=`, in a leading assignment word) cannot then begin an assignment. -/

/-- Quoting state of the shell scanner. -/
inductive ShellState where
  | unq
  | insq
  | indq
deriving DecidableEq, Repr

/-- Characters accepted as literal in unquoted position by the model. -/
def unqLiteral (c : Char) : Bool := shlexSafe c

/-- The shell scanner: state, reversed current word, whether a current word
has started, reversed list of completed words, remaining input. -/
def shellRun : ShellState → List Char → Bool → List (List Char) → List Char →
    Option (List (List Char))
  | .unq, acc, started, ws, [] =>
    some ((if started then acc.reverse :: ws else ws).reverse)
  | .unq, acc, started, ws, c :: cs =>
    if c = ' ' || c = Char.ofNat 9 then
      shellRun .unq [] false (if started then acc.reverse :: ws else ws) cs
    else if c = sqc then shellRun .insq acc true ws cs
    else if c = dqc then shellRun .indq acc true ws cs
    else if unqLiteral c then shellRun .unq (c :: acc) true ws cs
    else none
  | .insq, _, _, _, [] => none
  | .insq, acc, _, ws, c :: cs =>
    if c = sqc then shellRun .unq acc true ws cs
    else shellRun .insq (c :: acc) true ws cs
  | .indq, _, _, _, [] => none
  | .indq, acc, _, ws, c :: cs =>
    if c = dqc then shellRun .unq acc true ws cs
    else if c = dlc || c = btc || c = bsc then none
    else shellRun .indq (c :: acc) true ws cs

/-- Fields of a shell line under the model, as strings. -/
def shellFields (s : String) : Option (List String) :=
  (shellRun .unq [] false [] s.data).map (fun ws => ws.map String.mk)

/-! ## Local time model and `parsers.parse_when`

Python `datetime` values are modelled as a day number plus microseconds
within the day (`us < 86400000000` for every value `datetime` can actually
produce; theorems carry that bound as a hypothesis where they rely on it).
Comparison of datetimes is chronological, i.e. comparison of `absUs`.
Adding `timedelta(days=1)` is `day + 1`.  The external `dateutil` free-form
parser is not part of this repository, so `parse_when` takes it as an
explicit `oracle` argument mirroring `dtparser.parse(raw, default=...)`:
`ok` is a parsed datetime and `error` carries the exception text `e`
interpolated into the `could not parse` diagnostic. -/

/-- A timezone-naive local datetime: day number and microseconds of day. -/
structure Moment where
  day : Nat
  us : Nat
deriving DecidableEq, Repr

/-- Microseconds per day. -/
def microsPerDay : Nat := 86400000000

/-- Absolute microsecond count of a `Moment`; datetime order is the order of
this value. -/
def absUs (m : Moment) : Nat := m.day * microsPerDay + m.us

/-- Hour field of a datetime. -/
def Moment.hour (m : Moment) : Nat := m.us / 3600000000

/-- Minute field of a datetime. -/
def Moment.minute (m : Moment) : Nat := m.us / 60000000 % 60

/-- Second field of a datetime. -/
def Moment.second (m : Moment) : Nat := m.us / 1000000 % 60

/-- Microsecond field of a datetime. -/
def Moment.microsecond (m : Moment) : Nat := m.us % 1000000

/-- Model of `dt.replace(microsecond=0)`. -/
def truncMicro (m : Moment) : Moment := ⟨m.day, m.us - m.us % 1000000⟩

/-- Microseconds of day for a wall-clock time of day. -/
def hmsToUs (h mi s : Nat) : Nat := ((h * 60 + mi) * 60 + s) * 1000000

/-- First whitespace-delimited token, as in `raw.split()[0]` (the call sites
guarantee `raw` is a non-blank stripped string, so the Python indexing cannot
fail there; on all-blank input this model returns the empty token). -/
def firstTokenL (l : List Char) : List Char :=
  (l.dropWhile pyIsSpace).takeWhile (fun c => !pyIsSpace c)

/-- Substring containment test, as in Python `pat in s`. -/
def containsSeq (pat : List Char) : List Char → Bool
  | [] => pat.isEmpty
  | c :: t => pat.isPrefixOf (c :: t) || containsSeq pat t

/-- Embedding of the `looks_time_only` heuristic of `parse_when`, exactly as
written in the source: the first conjunct filters the characters of the first
token to those that are `-` or `/` and asks whether any of those is a digit
(the generator expression `ch.isdigit() for ch in raw.split()[0] if ch in` the
two-character separator string), and the second conjunct checks for a colon, a
case-insensitive `am`/`pm`, or an all-digit stripped text. -/
def looks_time_only (raw : String) : Bool :=
  !(((firstTokenL raw.data).filter (fun ch => ch = '-' || ch = '/')).any pyIsDigit)
  && (raw.data.contains ':'
      || containsSeq (['a', 'm']) (pyLower raw).data
      || containsSeq (['p', 'm']) (pyLower raw).data
      || pyIsDigitStr (pyStrip raw))

/-- Whether a digit stands immediately next to a `-` or `/` separator. -/
def hasDigitAdjacentSep : List Char → Bool
  | [] => false
  | [_] => false
  | a :: b :: rest =>
    (pyIsDigit a && (b = '-' || b = '/')) || ((a = '-' || a = '/') && pyIsDigit b) ||
    hasDigitAdjacentSep (b :: rest)

/-- Time-only classification as the specification words it (for comparison
with the code's `looks_time_only`): the first whitespace-delimited token
contains no date-separator digits — no digit adjacent to `-` or `/` — AND the
raw text contains `:`, or case-insensitive `am`/`pm`, or the trimmed text is
purely digits. -/
def claimTimeOnly (raw : String) : Bool :=
  !hasDigitAdjacentSep (firstTokenL raw.data)
  && (raw.data.contains ':'
      || containsSeq (['a', 'm']) (pyLower raw).data
      || containsSeq (['p', 'm']) (pyLower raw).data
      || pyIsDigitStr (pyStrip raw))

/-- Error taxonomy of `parse_when`, one constructor per `die` call site.
`couldNotParse` carries the stripped input and the underlying parser's
diagnostic; `notFuture` carries the offending instant (the source interpolates
`dt.isoformat(sep=un-space, timespec=minutes)` into the message). -/
inductive WhenErr where
  | emptyTime
  | couldNotParse (raw : String) (diag : String)
  | notFuture (dt : Moment)
deriving DecidableEq, Repr

/-- Embedding of `parsers.parse_when`.  `oracle` is the `dateutil` free-form
parse with the truncated current moment as default fill-in; `now` is
`datetime.now()`. -/
def parse_when (oracle : String → Moment → Except String Moment) (now : Moment)
    (text : String) : Except WhenErr Moment :=
  if (pyStrip text).data = [] then .error .emptyTime
  else
    match oracle (pyStrip text) (truncMicro now) with
    | .error e => .error (.couldNotParse (pyStrip text) e)
    | .ok dt0 =>
      let dt := truncMicro dt0
      if looks_time_only (pyStrip text) then
        let c : Moment := ⟨now.day, hmsToUs dt.hour dt.minute dt.second⟩
        if absUs c ≤ absUs now then .ok ⟨c.day + 1, c.us⟩ else .ok c
      else if absUs dt ≤ absUs now then .error (.notFuture dt)
      else .ok dt

/-! ## Backend registry and auto-selection (`backends.py`)

`shutil.which` probes are environment facts, abstracted into an `Env` of two
availability flags.  The `BACKENDS` dict is an insertion-ordered mapping
auto, systemd, at; the key `at` is a reserved word in Lean, so its
identifier here is `atq`.  The lazily initialised `_delegate` attribute of
`AutoBackend` is modelled as explicit state of type `Option BackendId`
threaded through the operations. -/

/-- Backend identifiers, in the key set of `BACKENDS`. -/
inductive BackendId where
  | auto
  | systemd
  | atq
deriving DecidableEq, Repr

/-- Availability of the external executables (`shutil.which` results). -/
structure Env where
  systemdAvailable : Bool
  atAvailable : Bool
deriving DecidableEq, Repr

/-- The `BACKENDS` registry in declared (insertion) order. -/
def BACKENDS : List BackendId := [.auto, .systemd, .atq]

/-- Availability probes of the concrete backends (`SystemdBackend.is_available`,
`AtBackend.is_available`).  The `auto` entry is never probed through this
function: every scan filters `name != "auto"` first; the `false` value keeps
the function total. -/
def probe (env : Env) : BackendId → Bool
  | .auto => false
  | .systemd => env.systemdAvailable
  | .atq => env.atAvailable

/-- Model of `AutoBackend.is_available`: whether any non-auto registry entry is
available, scanning in declared order. -/
def autoIsAvailable (env : Env) : Bool :=
  (BACKENDS.filter (fun n => n != BackendId.auto)).any (probe env)

/-- Model of `AutoBackend._select_delegate`: the first registry entry that is not
`auto` and whose probe succeeds; if none, the fatal error listing all
non-auto identifiers. -/
def select_delegate (env : Env) : Except (List BackendId) BackendId :=
  match BACKENDS.find? (fun n => n != BackendId.auto && probe env n) with
  | some b => .ok b
  | none => .error (BACKENDS.filter (fun n => n != BackendId.auto))

/-- The `AutoBackend.delegate` property: returns the cached delegate if set,
otherwise selects and caches; the pair is (backend used, updated cache). -/
def delegateGet (env : Env) (st : Option BackendId) :
    Except (List BackendId) (BackendId × Option BackendId) :=
  match st with
  | some b => .ok (b, some b)
  | none =>
    match select_delegate env with
    | .ok b => .ok (b, some b)
    | .error l => .error l

/-- Both `AutoBackend.schedule_in` and `AutoBackend.schedule_at` access the
delegate property and forward to it; what matters for selection and caching
is the delegate access itself. -/
def auto_schedule (env : Env) (st : Option BackendId) :
    Except (List BackendId) (BackendId × Option BackendId) :=
  delegateGet env st

/-- Since `AutoBackend.is_available` is a `@staticmethod`, it reads no instance
state and writes none, so the cache is returned unchanged. -/
def auto_is_available (env : Env) (st : Option BackendId) :
    Bool × Option BackendId :=
  (autoIsAvailable env, st)

/-! ## Job names (`utils.unit_name`)

Calendar datetime fields for `strftime`; no calendar arithmetic is performed
by `unit_name`, so the fields are independent naturals bounded as `datetime`
bounds them (hypotheses on the theorems). -/

/-- The calendar fields of a datetime used by `strftime` and the microsecond
format. -/
structure Timestamp where
  year : Nat
  month : Nat
  day : Nat
  hour : Nat
  minute : Nat
  second : Nat
  microsecond : Nat
deriving DecidableEq, Repr

/-- Decimal digit characters of `n`, most significant first (empty for 0). -/
def natDigits (n : Nat) : List Char :=
  ((Nat.digits 10 n).reverse).map (fun d => Char.ofNat (48 + d))

/-- Zero-padded decimal of width `w`, as produced by the `strftime`
two-digit fields and the `:06d` format specifier. -/
def padNum (w n : Nat) : List Char :=
  List.leftpad w '0' (natDigits n)

/-- Embedding of `utils.unit_name`:
the f-string `{prefix}-{stamp}-{microsecond:06d}` with
`stamp = when.strftime` of `%Y%m%d-%H%M%S`.  `prefix` is a reserved word in
Lean, so the parameter is `pfx`.  For the four-digit years `datetime`
produces in practice, `%Y` is the plain four-digit decimal on every
platform, which `padNum 4` matches; concatenation is grouped right-to-left
(string concatenation is associative). -/
def unit_name (pfx : String) (w : Timestamp) : String :=
  String.mk (pfx.data ++ ('-' ::
    ((padNum 4 w.year ++ (padNum 2 w.month ++ padNum 2 w.day)) ++ ('-' ::
    ((padNum 2 w.hour ++ (padNum 2 w.minute ++ padNum 2 w.second)) ++ ('-' ::
    padNum 6 w.microsecond))))))

/-! ## Helper lemmas: character classes and digit strings -/

theorem pyIsDigit_bounds {c : Char} (h : pyIsDigit c = true) :
    48 ≤ c.toNat ∧ c.toNat ≤ 57 := by
  simpa [pyIsDigit] using h

theorem pyIsDigit_not_space {c : Char} (h : pyIsDigit c = true) :
    pyIsSpace c = false := by
  rcases pyIsDigit_bounds h with ⟨h1, h2⟩
  unfold pyIsSpace
  simp only [Bool.or_eq_false_iff, decide_eq_false_iff_not]
  refine ⟨⟨⟨⟨⟨?_, ?_⟩, ?_⟩, ?_⟩, ?_⟩, ?_⟩ <;>
    (intro hc; subst hc; simp_all)

theorem pyIsDigit_ne_plus {c : Char} (h : pyIsDigit c = true) : c ≠ '+' := by
  intro hc; subst hc; simp [pyIsDigit] at h

theorem pyIsDigit_ne_minus {c : Char} (h : pyIsDigit c = true) : c ≠ '-' := by
  intro hc; subst hc; simp [pyIsDigit] at h

theorem dropWhile_eq_self_of_all_false {p : Char → Bool} {l : List Char}
    (h : ∀ c ∈ l, p c = false) : l.dropWhile p = l := by
  cases l with
  | nil => rfl
  | cons c t => simp [List.dropWhile, h c (List.mem_cons_self c t)]

theorem pyStripL_of_all_digits {l : List Char} (h : l.all pyIsDigit = true) :
    pyStripL l = l := by
  have hns : ∀ c ∈ l, pyIsSpace c = false := by
    intro c hc
    exact pyIsDigit_not_space (by simpa using List.all_eq_true.mp h c hc)
  unfold pyStripL
  rw [dropWhile_eq_self_of_all_false hns,
      dropWhile_eq_self_of_all_false (by intro c hc; exact hns c (List.mem_reverse.mp hc)),
      List.reverse_reverse]

theorem pyIsDigitStr_split {s : String} (h : pyIsDigitStr s = true) :
    s.data ≠ [] ∧ s.data.all pyIsDigit = true := by
  rcases Bool.and_eq_true_iff.mp h with ⟨h1, h2⟩
  refine ⟨?_, h2⟩
  intro hc
  rw [hc] at h1
  simp at h1

theorem pyInt?_of_digits {s : String} (h : pyIsDigitStr s = true) :
    pyInt? s = some ((digitsToNat s.data : Int)) := by
  rcases pyIsDigitStr_split h with ⟨hne, hall⟩
  cases hd : s.data with
  | nil => exact absurd hd hne
  | cons c rest =>
    have hall' : (c :: rest).all pyIsDigit = true := hd ▸ hall
    have hcd : pyIsDigit c = true := by
      simpa using List.all_eq_true.mp hall' c (by simp)
    have hstrip : pyStripL s.data = c :: rest := by
      rw [pyStripL_of_all_digits hall, hd]
    simp only [pyInt?, hstrip]
    rw [if_neg (pyIsDigit_ne_plus hcd), if_neg (pyIsDigit_ne_minus hcd),
        if_pos hall']

/-! ## Helper lemmas: `parse_duration` -/

theorem unitSeconds_pos {u : Char} {f : Nat} (h : unitSeconds u = some f) : 1 ≤ f := by
  unfold unitSeconds at h
  split_ifs at h <;> simp_all <;> omega

theorem unitSeconds_isSome_iff {u : Char} :
    (u = 's' || u = 'm' || u = 'h' || u = 'd') = true ↔ (unitSeconds u).isSome = true := by
  unfold unitSeconds
  constructor
  · intro h
    have h' : ((u = 's' ∨ u = 'm') ∨ u = 'h') ∨ u = 'd' := by simpa using h
    rcases h' with ((h | h) | h) | h <;> subst h <;> simp
  · intro h
    split_ifs at h with h1 h2 h3 h4 <;> simp_all

theorem parse_duration_concat {text : String} {ds : List Char} {u : Char}
    (ht : (pyLower (pyStrip text)).data = ds ++ [u]) :
    parse_duration text = parse_duration_core ds u := by
  unfold parse_duration
  rw [dif_neg (by simp [ht])]
  congr 1
  · rw [ht]; exact List.dropLast_concat
  · rw [List.getLast_congr _ _ ht]; exact List.getLast_concat _

theorem parse_duration_core_invalid {ds : List Char} {u : Char}
    (h : unitSeconds u = none ∨ ds = [] ∨ ds.all pyIsDigit = false) :
    parse_duration_core ds u = .error .invalidShape := by
  unfold parse_duration_core
  rw [if_neg]
  intro hc
  rcases Bool.and_eq_true_iff.mp hc with ⟨hu, hdig⟩
  have hsome := unitSeconds_isSome_iff.mp hu
  have : ds ≠ [] ∧ ds.all pyIsDigit = true := by
    simpa [pyIsDigitStr, List.isEmpty_iff] using hdig
  rcases h with h | h | h
  · rw [h] at hsome; simp at hsome
  · exact this.1 h
  · rw [h] at this; simp at this

theorem parse_duration_core_valid {ds : List Char} {u : Char} {f : Nat}
    (hu : unitSeconds u = some f) (hne : ds ≠ []) (hdig : ds.all pyIsDigit = true) :
    parse_duration_core ds u =
      if digitsToNat ds = 0 then .error .nonPositive
      else if 365 * 86400 < digitsToNat ds * f then .error .tooLarge
      else .ok (digitsToNat ds * f) := by
  have hds : pyIsDigitStr (String.mk ds) = true := by
    simp [pyIsDigitStr, List.isEmpty_iff, hne, hdig]
  have hbool : (u = 's' || u = 'm' || u = 'h' || u = 'd') = true :=
    unitSeconds_isSome_iff.mpr (by rw [hu]; rfl)
  unfold parse_duration_core
  rw [if_pos (by rw [hbool, hds]; rfl), pyInt?_of_digits hds]
  simp only [hu, Int.toNat_natCast]
  by_cases h0 : digitsToNat ds = 0
  · rw [if_pos (by simp [h0]), if_pos h0]
  · rw [if_neg (by simp; omega), if_neg h0]

theorem parse_duration_ok_iff {text : String} {v : Nat} :
    parse_duration text = .ok v ↔
      ∃ ds u f, (pyLower (pyStrip text)).data = ds ++ [u] ∧ unitSeconds u = some f ∧
        ds ≠ [] ∧ ds.all pyIsDigit = true ∧ 0 < digitsToNat ds ∧
        digitsToNat ds * f ≤ 365 * 86400 ∧ v = digitsToNat ds * f := by
  constructor
  · intro h
    rcases List.eq_nil_or_concat ((pyLower (pyStrip text)).data) with hnil | ⟨ds, u, hcat⟩
    · unfold parse_duration at h
      rw [dif_pos hnil] at h
      exact absurd h (by simp)
    · rw [List.concat_eq_append] at hcat
      rw [parse_duration_concat hcat] at h
      by_cases hval : unitSeconds u = none ∨ ds = [] ∨ ds.all pyIsDigit = false
      · rw [parse_duration_core_invalid hval] at h; exact absurd h (by simp)
      · push_neg at hval
        rcases hval with ⟨hu, hne, hdig⟩
        rcases Option.ne_none_iff_exists'.mp hu with ⟨f, hf⟩
        have hdig' : ds.all pyIsDigit = true := by
          cases hx : ds.all pyIsDigit with
          | false => exact absurd hx hdig
          | true => rfl
        rw [parse_duration_core_valid hf hne hdig'] at h
        split_ifs at h with h1 h2
        · exact ⟨ds, u, f, hcat, hf, hne, hdig', by omega,
            by simpa using (le_of_not_lt h2), by injection h with h; omega⟩
  · rintro ⟨ds, u, f, hcat, hf, hne, hdig, hpos, hle, hv⟩
    rw [parse_duration_concat hcat, parse_duration_core_valid hf hne hdig,
        if_neg (by omega), if_neg (by omega), hv]

theorem parse_duration_empty {text : String}
    (h : (pyLower (pyStrip text)).data = []) :
    parse_duration text = .error .empty := by
  unfold parse_duration
  rw [dif_pos h]

theorem format_systemd_duration_pos {n : Int} (hn : 0 < n) :
    format_systemd_duration n =
      if n.toNat % 86400 = 0 then .ok (toString (n.toNat / 86400) ++ "d")
      else if n.toNat % 3600 = 0 then .ok (toString (n.toNat / 3600) ++ "h")
      else if n.toNat % 60 = 0 then .ok (toString (n.toNat / 60) ++ "m")
      else .ok (toString n.toNat ++ "s") := by
  unfold format_systemd_duration
  rw [if_neg (by omega)]

/-! ## Claim theorems: duration parsing and formatting -/

/-- C4.  `parse_duration` succeeds exactly on inputs that, after trimming and
lower-casing, are a non-empty digit string followed by a unit letter in
{s,m,h,d}, with positive value and span at most 365 days, and then returns the
value times the unit factor (s=1, m=60, h=3600, d=86400) in seconds; empty
input, a bad shape (missing/unknown unit or non-digit magnitude), a zero
magnitude, and an over-large span are rejected with four distinct errors. -/
theorem parse_duration_spec (text : String) (t : List Char)
    (ht : (pyLower (pyStrip text)).data = t) :
    (t = [] → parse_duration text = .error .empty)
    ∧ (∀ v, parse_duration text = .ok v ↔
        ∃ ds u f, t = ds ++ [u] ∧ unitSeconds u = some f ∧ ds ≠ [] ∧
          ds.all pyIsDigit = true ∧ 0 < digitsToNat ds ∧
          digitsToNat ds * f ≤ 365 * 86400 ∧ v = digitsToNat ds * f)
    ∧ (∀ ds u, t = ds ++ [u] →
        (unitSeconds u = none ∨ ds = [] ∨ ds.all pyIsDigit = false) →
        parse_duration text = .error .invalidShape)
    ∧ (∀ ds u f, t = ds ++ [u] → unitSeconds u = some f → ds ≠ [] →
        ds.all pyIsDigit = true →
        (digitsToNat ds = 0 → parse_duration text = .error .nonPositive)
        ∧ (365 * 86400 < digitsToNat ds * f →
            parse_duration text = .error .tooLarge)) := by
  subst ht
  refine ⟨parse_duration_empty, ?_, ?_, ?_⟩
  · intro v
    rw [parse_duration_ok_iff]
  · intro ds u hcat hbad
    rw [parse_duration_concat hcat]
    exact parse_duration_core_invalid hbad
  · intro ds u f hcat hf hne hdig
    rw [parse_duration_concat hcat, parse_duration_core_valid hf hne hdig]
    constructor
    · intro h0; rw [if_pos h0]
    · intro hlt
      rw [if_neg (by rintro h0; rw [h0] at hlt; simp at hlt), if_pos hlt]

/-- C4 witness: concrete instances of each branch of `parse_duration_spec`
(success with trimming and lower-casing, empty input, bad shape, zero
magnitude, over-large span). -/
theorem parse_duration_spec_witness :
    parse_duration (" 30M ") = .ok 1800
    ∧ parse_duration ("") = .error .empty
    ∧ parse_duration ("30x") = .error .invalidShape
    ∧ parse_duration ("0m") = .error .nonPositive
    ∧ parse_duration ("366d") = .error .tooLarge := by
  refine ⟨?_, ?_, ?_, ?_, ?_⟩
  · exact ((parse_duration_spec (" 30M ") (['3', '0', 'm']) (by decide)).2.1 1800).mpr
      ⟨['3', '0'], 'm', 60, by decide, by decide, by decide, by decide, by decide,
        by decide, by decide⟩
  · exact (parse_duration_spec ("") ([]) (by decide)).1 rfl
  · exact (parse_duration_spec ("30x") (['3', '0', 'x']) (by decide)).2.2.1
      (['3', '0']) 'x' (by decide) (Or.inl (by decide))
  · exact ((parse_duration_spec ("0m") (['0', 'm']) (by decide)).2.2.2
      (['0']) 'm' 60 (by decide) (by decide) (by decide) (by decide)).1 (by decide)
  · exact ((parse_duration_spec ("366d") (['3', '6', '6', 'd']) (by decide)).2.2.2
      (['3', '6', '6']) 'd' 86400 (by decide) (by decide) (by decide) (by decide)).2
      (by decide)

theorem format_systemd_duration_pos_ok {n : Int} (hn : 0 < n) :
    format_systemd_duration n ≠ .error .nonPositive
    ∧ ∃ out, format_systemd_duration n = .ok out := by
  rw [format_systemd_duration_pos hn]
  split_ifs <;> exact ⟨by simp, _, rfl⟩

/-- C6.  For a positive whole-second count, `format_systemd_duration` returns
`<N><unit>` for the first unit that divides the count exactly, checked in
order days, hours, minutes, and falls back to seconds (so the largest exactly
dividing unit wins, since 60 divides 3600 divides 86400); a whole-second count
of at most zero fails with the non-positive-duration error. -/
theorem format_systemd_duration_spec (n : Int) :
    (0 < n →
      (86400 ∣ n.toNat →
        format_systemd_duration n = .ok (toString (n.toNat / 86400) ++ "d"))
      ∧ (¬(86400 ∣ n.toNat) → 3600 ∣ n.toNat →
        format_systemd_duration n = .ok (toString (n.toNat / 3600) ++ "h"))
      ∧ (¬(86400 ∣ n.toNat) → ¬(3600 ∣ n.toNat) → 60 ∣ n.toNat →
        format_systemd_duration n = .ok (toString (n.toNat / 60) ++ "m"))
      ∧ (¬(86400 ∣ n.toNat) → ¬(3600 ∣ n.toNat) → ¬(60 ∣ n.toNat) →
        format_systemd_duration n = .ok (toString n.toNat ++ "s")))
    ∧ (n ≤ 0 → format_systemd_duration n = .error .nonPositive) := by
  constructor
  · intro hn
    rw [format_systemd_duration_pos hn]
    refine ⟨?_, ?_, ?_, ?_⟩
    · intro hd
      rw [if_pos (Nat.mod_eq_zero_of_dvd hd)]
    · intro hd hh
      rw [if_neg (fun hc => hd (Nat.dvd_of_mod_eq_zero hc)),
          if_pos (Nat.mod_eq_zero_of_dvd hh)]
    · intro hd hh hm
      rw [if_neg (fun hc => hd (Nat.dvd_of_mod_eq_zero hc)),
          if_neg (fun hc => hh (Nat.dvd_of_mod_eq_zero hc)),
          if_pos (Nat.mod_eq_zero_of_dvd hm)]
    · intro hd hh hm
      rw [if_neg (fun hc => hd (Nat.dvd_of_mod_eq_zero hc)),
          if_neg (fun hc => hh (Nat.dvd_of_mod_eq_zero hc)),
          if_neg (fun hc => hm (Nat.dvd_of_mod_eq_zero hc))]
  · intro hn
    unfold format_systemd_duration
    rw [if_pos hn]

/-- C6 witness: the concrete round-trips named by the claim, plus the
non-positive rejection. -/
theorem format_systemd_duration_spec_witness :
    format_systemd_duration 86400 = .ok ("1d")
    ∧ format_systemd_duration 3600 = .ok ("1h")
    ∧ format_systemd_duration 60 = .ok ("1m")
    ∧ format_systemd_duration 5415 = .ok ("5415s")
    ∧ format_systemd_duration 0 = .error .nonPositive := by
  refine ⟨?_, ?_, ?_, ?_, ?_⟩
  · exact (((format_systemd_duration_spec 86400).1 (by decide)).1 (by decide)).trans
      (by rfl)
  · exact (((format_systemd_duration_spec 3600).1 (by decide)).2.1 (by decide)
      (by decide)).trans (by rfl)
  · exact (((format_systemd_duration_spec 60).1 (by decide)).2.2.1 (by decide)
      (by decide) (by decide)).trans (by rfl)
  · exact (((format_systemd_duration_spec 5415).1 (by decide)).2.2.2 (by decide)
      (by decide) (by decide)).trans (by rfl)
  · exact (format_systemd_duration_spec 0).2 (by decide)

/-- C9.  Every duration successfully returned by `parse_duration` is at least
one whole second, so the non-positive branch of `format_systemd_duration` is
unreachable on such inputs (the formatter succeeds on them); yet the formatter
itself still fails loudly on any whole-second count of at most zero. -/
theorem formatter_guard_unreachable_upstream :
    (∀ (text : String) (v : Nat), parse_duration text = .ok v →
      1 ≤ v ∧ format_systemd_duration (v : Int) ≠ .error .nonPositive
        ∧ ∃ out, format_systemd_duration (v : Int) = .ok out)
    ∧ ∀ z : Int, z ≤ 0 → format_systemd_duration z = .error .nonPositive := by
  constructor
  · intro text v h
    rcases parse_duration_ok_iff.mp h with ⟨ds, u, f, _, hf, _, _, hpos, _, hv⟩
    have h1 : 1 ≤ v := by
      have := unitSeconds_pos hf
      calc 1 ≤ 1 * 1 := by omega
      _ ≤ digitsToNat ds * f := Nat.mul_le_mul hpos this
      _ = v := hv.symm
    have hpos' : (0 : Int) < (v : Int) := by omega
    exact ⟨h1, (format_systemd_duration_pos_ok hpos').1,
      (format_systemd_duration_pos_ok hpos').2⟩
  · intro z hz
    unfold format_systemd_duration
    rw [if_pos hz]

/-- C9 witness: the parser output 45 (from input 45s) is positive and formats
successfully, while a zero or negative whole-second count is rejected. -/
theorem formatter_guard_unreachable_upstream_witness :
    (1 ≤ 45 ∧ format_systemd_duration ((45 : Nat) : Int) ≠ .error .nonPositive
      ∧ ∃ out, format_systemd_duration ((45 : Nat) : Int) = .ok out)
    ∧ format_systemd_duration (-2) = .error .nonPositive :=
  ⟨formatter_guard_unreachable_upstream.1 ("45s") 45 (by rfl),
    formatter_guard_unreachable_upstream.2 (-2) (by decide)⟩

/-- C10 (refuted).  CPython's `str.isdigit` also accepts characters with
Unicode Numeric_Type=Digit, such as the superscript two (U+00B2), which
`int()` rejects with a `ValueError`.  Under the Unicode-aware guard model,
the magnitude of the superscript-two-then-s input passes the digit-string
guard, the `int()` conversion fails, and `parse_duration` reaches the
internal-exception outcome — modelling the uncaught `ValueError` that escapes
the Python function instead of any documented `die` error. -/
theorem parse_duration_escapes_value_error :
    pyIsDigitStrU (String.mk ([Char.ofNat 178])) = true
    ∧ pyInt? (String.mk ([Char.ofNat 178])) = none
    ∧ parse_duration_u (String.mk ([Char.ofNat 178, 's'])) = .error .internalInt
    ∧ parse_duration_u (String.mk (['3', '0', 'm'])) = .ok 1800 := by
  refine ⟨by decide, by decide, by decide, by decide⟩

/-! ## Helper lemmas: shell quoting and the shell model -/

theorem data_append (a b : String) : (a ++ b).data = a.data ++ b.data := by
  cases a; cases b; rfl

theorem shlexSafe_not_special {c : Char} (h : shlexSafe c = true) :
    c ≠ ' ' ∧ c ≠ Char.ofNat 9 ∧ c ≠ sqc ∧ c ≠ dqc := by
  refine ⟨?_, ?_, ?_, ?_⟩ <;> (intro hc; subst hc; revert h; decide)

theorem shellRun_end (acc : List Char) (ws : List (List Char)) :
    shellRun .unq acc true ws [] = some ((acc.reverse :: ws).reverse) := rfl

theorem shellRun_space (acc : List Char) (b : Bool) (ws : List (List Char))
    (cs : List Char) :
    shellRun .unq acc b ws (' ' :: cs) =
      shellRun .unq [] false (if b then acc.reverse :: ws else ws) cs := rfl

theorem shellRun_openSq (acc : List Char) (b : Bool) (ws : List (List Char))
    (cs : List Char) :
    shellRun .unq acc b ws (sqc :: cs) = shellRun .insq acc true ws cs := rfl

theorem shellRun_openDq (acc : List Char) (b : Bool) (ws : List (List Char))
    (cs : List Char) :
    shellRun .unq acc b ws (dqc :: cs) = shellRun .indq acc true ws cs := rfl

theorem shellRun_lit {c : Char} (h : shlexSafe c = true) (acc : List Char)
    (b : Bool) (ws : List (List Char)) (cs : List Char) :
    shellRun .unq acc b ws (c :: cs) = shellRun .unq (c :: acc) true ws cs := by
  rcases shlexSafe_not_special h with ⟨h1, h2, h3, h4⟩
  show (if c = ' ' || c = Char.ofNat 9 then
      shellRun .unq [] false (if b then acc.reverse :: ws else ws) cs
    else if c = sqc then shellRun .insq acc true ws cs
    else if c = dqc then shellRun .indq acc true ws cs
    else if unqLiteral c then shellRun .unq (c :: acc) true ws cs
    else none) = shellRun .unq (c :: acc) true ws cs
  rw [if_neg (by simp [h1, h2]), if_neg h3, if_neg h4,
      if_pos (show unqLiteral c = true from h)]

theorem shellRun_insq_close (acc : List Char) (b : Bool) (ws : List (List Char))
    (cs : List Char) :
    shellRun .insq acc b ws (sqc :: cs) = shellRun .unq acc true ws cs := rfl

theorem shellRun_insq_lit {c : Char} (h : c ≠ sqc) (acc : List Char) (b : Bool)
    (ws : List (List Char)) (cs : List Char) :
    shellRun .insq acc b ws (c :: cs) = shellRun .insq (c :: acc) true ws cs := by
  show (if c = sqc then shellRun .unq acc true ws cs
    else shellRun .insq (c :: acc) true ws cs) = shellRun .insq (c :: acc) true ws cs
  rw [if_neg h]

theorem shellRun_indq_sq (acc : List Char) (b : Bool) (ws : List (List Char))
    (cs : List Char) :
    shellRun .indq acc b ws (sqc :: cs) = shellRun .indq (sqc :: acc) true ws cs := rfl

theorem shellRun_indq_close (acc : List Char) (b : Bool) (ws : List (List Char))
    (cs : List Char) :
    shellRun .indq acc b ws (dqc :: cs) = shellRun .unq acc true ws cs := rfl

theorem shellRun_insq_content (s : List Char) :
    ∀ (acc : List Char) (b : Bool) (ws : List (List Char)) (rest : List Char),
      shellRun .insq acc b ws (s.flatMap escSq ++ (sqc :: rest)) =
        shellRun .unq (s.reverse ++ acc) true ws rest := by
  induction s with
  | nil =>
    intro acc b ws rest
    rw [List.flatMap_nil, List.nil_append, shellRun_insq_close, List.reverse_nil,
        List.nil_append]
  | cons c t ih =>
    intro acc b ws rest
    rw [List.flatMap_cons, List.append_assoc]
    by_cases hc : c = sqc
    · subst hc
      rw [show escSq sqc = [sqc, dqc, sqc, dqc, sqc] from rfl]
      rw [show ([sqc, dqc, sqc, dqc, sqc] : List Char) ++
          (t.flatMap escSq ++ (sqc :: rest)) =
          sqc :: dqc :: sqc :: dqc :: sqc :: (t.flatMap escSq ++ (sqc :: rest)) from rfl]
      rw [shellRun_insq_close, shellRun_openDq, shellRun_indq_sq, shellRun_indq_close,
          shellRun_openSq, ih]
      rw [List.reverse_cons, List.append_assoc, List.singleton_append]
    · rw [show escSq c = [c] from if_neg hc]
      rw [List.singleton_append, shellRun_insq_lit hc, ih]
      rw [List.reverse_cons, List.append_assoc, List.singleton_append]

theorem shellRun_unq_safe_run (s : List Char) (hs : s.all shlexSafe = true) :
    ∀ (acc : List Char) (ws : List (List Char)) (rest : List Char),
      shellRun .unq acc true ws (s ++ rest) =
        shellRun .unq (s.reverse ++ acc) true ws rest := by
  induction s with
  | nil =>
    intro acc ws rest
    rw [List.nil_append, List.reverse_nil, List.nil_append]
  | cons c t ih =>
    intro acc ws rest
    have h' := hs
    rw [List.all_cons] at h'
    rcases Bool.and_eq_true_iff.mp h' with ⟨hc, ht⟩
    rw [List.cons_append, shellRun_lit hc, ih ht, List.reverse_cons,
        List.append_assoc, List.singleton_append]

theorem shellRun_word (s : List Char) (ws : List (List Char)) (rest : List Char) :
    shellRun .unq [] false ws (shQuoteL s ++ rest) =
      shellRun .unq s.reverse true ws rest := by
  unfold shQuoteL
  split_ifs with h0 hsafe
  · subst h0
    rw [show ([sqc, sqc] : List Char) ++ rest = sqc :: sqc :: rest from rfl,
        shellRun_openSq, shellRun_insq_close, List.reverse_nil]
  · cases s with
    | nil => exact absurd rfl h0
    | cons c t =>
      have h' := hsafe
      rw [List.all_cons] at h'
      rcases Bool.and_eq_true_iff.mp h' with ⟨hc, ht⟩
      rw [List.cons_append, shellRun_lit hc, shellRun_unq_safe_run t ht,
          List.reverse_cons]
  · rw [List.cons_append, shellRun_openSq, List.append_assoc,
        List.singleton_append, shellRun_insq_content s [] true ws rest,
        List.append_nil]

theorem mk_data (s : String) : String.mk s.data = s := rfl

/-- C1.  For every title and message, the shell line built for the `at`
backend, read by a POSIX shell (as modelled by `shellFields`), is exactly the
single simple command `notify-send` with the title and the message each as one
literal argument; no separator, substitution, redirection or any other
construct that could run another command survives the quoting. -/
theorem build_notify_shell_command_safe (title message : String) :
    shellFields (build_notify_shell_command title message) =
      some (["notify-send", title, message]) := by
  have hmk : ∀ l : List Char, (String.mk l).data = l := fun _ => rfl
  have hsp : (" ").data = [' '] := rfl
  have hns : shQuoteL (("notify-send").data) = ("notify-send").data := by decide
  have hdata : (build_notify_shell_command title message).data =
      shQuoteL (("notify-send").data) ++
        (' ' :: (shQuoteL title.data ++ (' ' :: shQuoteL message.data))) := by
    unfold build_notify_shell_command shQuote
    rw [data_append, data_append, data_append, data_append, hsp, hmk, hmk, hns]
    simp [List.append_assoc]
  unfold shellFields
  rw [hdata, shellRun_word, shellRun_space, if_pos rfl, List.reverse_reverse,
      shellRun_word, shellRun_space, if_pos rfl, List.reverse_reverse,
      ← List.append_nil (shQuoteL message.data), shellRun_word, shellRun_end]
  simp [mk_data]

/-! ## Claim theorems: `parse_when` and the time-only heuristic -/

/-- C2.  The code's time-only classifier diverges from the claimed one: the
first conjunct of the source heuristic inspects only characters that are
themselves `-` or `/` for digit-ness, which is vacuously false for every
input, so the classifier reduces to the second conjunct alone.  On the input
`2026-01-16 15:00` (whose first token has digits adjacent to `-`) the code
classifies time-only while the claim classifies not-time-only, and
`parse_when` consequently discards the explicit date: with today = day 100 at
10:00 and the free-form parse yielding day 101 at 15:00, it returns day 100
at 15:00. -/
theorem time_only_heuristic_divergence :
    (∀ raw : String,
      ((firstTokenL raw.data).filter (fun ch => ch = '-' || ch = '/')).any pyIsDigit
        = false)
    ∧ looks_time_only ("2026-01-16 15:00") = true
    ∧ claimTimeOnly ("2026-01-16 15:00") = false
    ∧ hasDigitAdjacentSep (firstTokenL (("2026-01-16 15:00")).data) = true
    ∧ parse_when (fun _ _ => Except.ok ⟨101, hmsToUs 15 0 0⟩) ⟨100, hmsToUs 10 0 0⟩
        ("2026-01-16 15:00") = Except.ok ⟨100, hmsToUs 15 0 0⟩ := by
  refine ⟨?_, by decide, by decide, by decide, by decide⟩
  intro raw
  rw [List.any_eq_false]
  intro x hx
  rcases List.mem_filter.mp hx with ⟨-, hsep⟩
  rcases Bool.or_eq_true_iff.mp hsep with h | h <;>
    (rw [decide_eq_true_iff] at h; subst h; decide)

/-- C3.  The error paths of `parse_when`: blank input fails with the
empty-time error; a failing free-form parse fails with the could-not-parse
error carrying the stripped input and the underlying diagnostic; and an input
classified as carrying a date whose (truncated) parsed instant is not
strictly after the current moment fails with the not-in-the-future error
carrying that instant. -/
theorem parse_when_error_paths
    (oracle : String → Moment → Except String Moment) (now : Moment)
    (text : String) :
    ((pyStrip text).data = [] → parse_when oracle now text = .error .emptyTime)
    ∧ (∀ e : String, (pyStrip text).data ≠ [] →
        oracle (pyStrip text) (truncMicro now) = .error e →
        parse_when oracle now text = .error (.couldNotParse (pyStrip text) e))
    ∧ (∀ dt0 : Moment, (pyStrip text).data ≠ [] →
        oracle (pyStrip text) (truncMicro now) = .ok dt0 →
        looks_time_only (pyStrip text) = false →
        absUs (truncMicro dt0) ≤ absUs now →
        parse_when oracle now text = .error (.notFuture (truncMicro dt0))) := by
  refine ⟨?_, ?_, ?_⟩
  · intro h
    unfold parse_when
    rw [if_pos h]
  · intro e hne hor
    unfold parse_when
    rw [if_neg hne]
    simp only [hor]
  · intro dt0 hne hok hto hle
    unfold parse_when
    rw [if_neg hne]
    simp only [hok]
    rw [if_neg (by simp [hto]), if_pos hle]

/-- C3 witness: the three error paths at concrete inputs (blank input; a
failing oracle with diagnostic `boom`; a date-classified past instant). -/
theorem parse_when_error_paths_witness :
    parse_when (fun _ _ => Except.error ("nope")) ⟨0, 0⟩ ("   ")
      = .error .emptyTime
    ∧ parse_when (fun _ _ => Except.error ("boom")) ⟨0, 0⟩ ("gibberish")
      = .error (.couldNotParse (pyStrip ("gibberish")) ("boom"))
    ∧ parse_when (fun _ _ => Except.ok ⟨0, 0⟩) ⟨100, 0⟩ ("2020-01-01")
      = .error (.notFuture (truncMicro ⟨0, 0⟩)) := by
  refine ⟨?_, ?_, ?_⟩
  · exact (parse_when_error_paths _ _ _).1 (by decide)
  · exact (parse_when_error_paths _ _ _).2.1 ("boom") (by decide) rfl
  · exact (parse_when_error_paths _ _ _).2.2 ⟨0, 0⟩ (by decide) rfl (by decide)
      (by decide)

/-- C5.  On inputs classified time-only, `parse_when` returns the candidate
built from the current date and the parsed hour/minute/second with sub-second
part zero, rolled forward by one full day exactly when the candidate is not
strictly after the current moment; the returned instant is always strictly in
the future. -/
theorem parse_when_time_only_spec
    (oracle : String → Moment → Except String Moment) (now : Moment)
    (text : String) (dt0 : Moment) (tu : Nat)
    (hne : (pyStrip text).data ≠ [])
    (hok : oracle (pyStrip text) (truncMicro now) = .ok dt0)
    (hto : looks_time_only (pyStrip text) = true)
    (hnow : now.us < microsPerDay)
    (htu : tu = hmsToUs (truncMicro dt0).hour (truncMicro dt0).minute
        (truncMicro dt0).second) :
    parse_when oracle now text =
      .ok (if absUs ⟨now.day, tu⟩ ≤ absUs now then (⟨now.day + 1, tu⟩ : Moment)
        else ⟨now.day, tu⟩)
    ∧ tu % 1000000 = 0
    ∧ absUs now < absUs (if absUs ⟨now.day, tu⟩ ≤ absUs now
        then (⟨now.day + 1, tu⟩ : Moment) else ⟨now.day, tu⟩) := by
  refine ⟨?_, ?_, ?_⟩
  · unfold parse_when
    rw [if_neg hne]
    simp only [hok]
    rw [if_pos hto]
    subst htu
    split_ifs with hc <;> rfl
  · rw [htu]
    simp [hmsToUs, Nat.mul_mod_left]
  · split_ifs with hc <;> simp only [absUs, microsPerDay] at * <;> omega

/-- C5 witness: the claim's concrete scenarios — input 15:00 with now at
10:00 yields today at 15:00; with now at 16:00 yields tomorrow at 15:00. -/
theorem parse_when_time_only_spec_witness :
    parse_when (fun _ _ => Except.ok ⟨0, hmsToUs 15 0 0⟩) ⟨0, hmsToUs 10 0 0⟩
      ("15:00") = .ok ⟨0, hmsToUs 15 0 0⟩
    ∧ parse_when (fun _ _ => Except.ok ⟨0, hmsToUs 15 0 0⟩) ⟨0, hmsToUs 16 0 0⟩
      ("15:00") = .ok ⟨1, hmsToUs 15 0 0⟩ := by
  constructor
  · exact (parse_when_time_only_spec (fun _ _ => Except.ok ⟨0, hmsToUs 15 0 0⟩)
      ⟨0, hmsToUs 10 0 0⟩ ("15:00") ⟨0, hmsToUs 15 0 0⟩ (hmsToUs 15 0 0)
      (by decide) rfl (by decide) (by decide) (by decide)).1.trans (by decide)
  · exact (parse_when_time_only_spec (fun _ _ => Except.ok ⟨0, hmsToUs 15 0 0⟩)
      ⟨0, hmsToUs 16 0 0⟩ ("15:00") ⟨0, hmsToUs 15 0 0⟩ (hmsToUs 15 0 0)
      (by decide) rfl (by decide) (by decide) (by decide)).1.trans (by decide)

/-! ## Claim theorems: backend auto-selection -/

/-- C7 counterexample: with systemd available and at not, a first use of
`is_available` on the auto backend reports availability but caches no
delegate (its cache stays `none`), although a selection scan would have
chosen the systemd backend — so `is_available` does not select-and-cache as
the claim states. -/
theorem auto_is_available_does_not_cache :
    (auto_is_available ⟨true, false⟩ none).1 = true
    ∧ (auto_is_available ⟨true, false⟩ none).2 = none
    ∧ select_delegate ⟨true, false⟩ = .ok BackendId.systemd
    ∧ (auto_is_available ⟨true, false⟩ none).2 ≠ some BackendId.systemd := by
  refine ⟨rfl, rfl, by decide, by decide⟩

/-- C7 (amended).  On first use of `schedule_in` or `schedule_at`, the auto
backend scans the registry in declared order (systemd then at), excluding
itself, selects the first backend whose probe is true and caches it; a cached
delegate is reused unchanged on every later use (selection happens at most
once per run); with (systemd, at) availability (true, _) selection yields
systemd, (false, true) yields at, and (false, false) fails fatally listing
the candidate identifiers systemd, at.  `is_available` scans the same
registry entries in the same order but only reports whether any is
available, without selecting or caching. -/
theorem auto_backend_selection_spec :
    (∀ (env : Env) (b : BackendId), auto_schedule env (some b) = .ok (b, some b))
    ∧ (∀ (env : Env) (b : BackendId), select_delegate env = .ok b →
        auto_schedule env none = .ok (b, some b))
    ∧ (∀ (env : Env) (l : List BackendId), select_delegate env = .error l →
        auto_schedule env none = .error l)
    ∧ (∀ (env : Env) (st : Option BackendId),
        auto_is_available env st = (env.systemdAvailable || env.atAvailable, st))
    ∧ (∀ s : Bool, select_delegate ⟨true, s⟩ = .ok BackendId.systemd)
    ∧ select_delegate ⟨false, true⟩ = .ok BackendId.atq
    ∧ select_delegate ⟨false, false⟩ = .error ([BackendId.systemd, BackendId.atq]) := by
  refine ⟨?_, ?_, ?_, ?_, ?_, by decide, by decide⟩
  · intro env b
    rfl
  · intro env b h
    unfold auto_schedule delegateGet
    simp only [h]
  · intro env l h
    unfold auto_schedule delegateGet
    simp only [h]
  · intro env st
    cases env with
    | mk s a => simp [auto_is_available, autoIsAvailable, BACKENDS, probe]
  · intro s
    cases s <;> decide

/-- C7 witness: the amended behaviour at concrete availability environments,
including cache reuse without re-selection. -/
theorem auto_backend_selection_spec_witness :
    auto_schedule ⟨true, false⟩ none = .ok (BackendId.systemd, some BackendId.systemd)
    ∧ auto_schedule ⟨false, true⟩ none = .ok (BackendId.atq, some BackendId.atq)
    ∧ auto_schedule ⟨false, false⟩ none = .error ([BackendId.systemd, BackendId.atq])
    ∧ auto_schedule ⟨true, false⟩ (some BackendId.atq) = .ok (BackendId.atq, some BackendId.atq)
    ∧ auto_is_available ⟨true, false⟩ none = (true, none) := by
  refine ⟨?_, ?_, ?_, ?_, ?_⟩
  · exact auto_backend_selection_spec.2.1 ⟨true, false⟩ BackendId.systemd
      (auto_backend_selection_spec.2.2.2.2.1 false)
  · exact auto_backend_selection_spec.2.1 ⟨false, true⟩ BackendId.atq (by decide)
  · exact auto_backend_selection_spec.2.2.1 ⟨false, false⟩
      ([BackendId.systemd, BackendId.atq]) (by decide)
  · exact auto_backend_selection_spec.1 ⟨true, false⟩ BackendId.atq
  · exact (auto_backend_selection_spec.2.2.2.1 ⟨true, false⟩ none).trans (by decide)

/-! ## Helper lemmas: decimal digit rendering for job names -/

theorem char_toNat_ofNat {n : Nat} (h : n < 55296) : (Char.ofNat n).toNat = n := by
  unfold Char.ofNat
  rw [dif_pos (Or.inl h)]
  rfl

theorem pyDigitVal_digitChar {d : Nat} (hd : d < 10) :
    pyDigitVal (Char.ofNat (48 + d)) = d := by
  unfold pyDigitVal
  rw [char_toNat_ofNat (by omega)]
  omega

theorem pyIsDigit_digitChar {d : Nat} (hd : d < 10) :
    pyIsDigit (Char.ofNat (48 + d)) = true := by
  unfold pyIsDigit
  rw [char_toNat_ofNat (by omega)]
  simp
  omega

theorem digitsToNat_rev_map (ds : List Nat) (hds : ∀ d ∈ ds, d < 10) :
    ∀ a : Nat,
      List.foldl (fun x c => x * 10 + pyDigitVal c) a
          ((ds.map (fun d => Char.ofNat (48 + d))).reverse)
        = a * 10 ^ ds.length + Nat.ofDigits 10 ds := by
  induction ds with
  | nil => intro a; simp [Nat.ofDigits_nil]
  | cons d t ih =>
    intro a
    have hd : d < 10 := hds d (by simp)
    have ht : ∀ x ∈ t, x < 10 := fun x hx => hds x (by simp [hx])
    rw [List.map_cons, List.reverse_cons, List.foldl_append, ih ht a]
    simp only [List.foldl_cons, List.foldl_nil, Nat.ofDigits_cons,
      List.length_cons, pyDigitVal_digitChar hd]
    ring

theorem digitsToNat_natDigits (n : Nat) : digitsToNat (natDigits n) = n := by
  unfold digitsToNat natDigits
  rw [List.map_reverse,
      digitsToNat_rev_map (Nat.digits 10 n)
        (fun d hd => Nat.digits_lt_base (by norm_num) hd) 0]
  simp [Nat.ofDigits_digits]

theorem digitsToNat_replicate_zero_append (k : Nat) (l : List Char) :
    digitsToNat (List.replicate k '0' ++ l) = digitsToNat l := by
  unfold digitsToNat
  rw [List.foldl_append]
  congr 1
  induction k with
  | zero => rfl
  | succ k ih => rw [List.replicate_succ, List.foldl_cons]; simpa [pyDigitVal] using ih

theorem digitsToNat_padNum (w n : Nat) : digitsToNat (padNum w n) = n := by
  unfold padNum List.leftpad
  rw [digitsToNat_replicate_zero_append, digitsToNat_natDigits]

theorem padNum_inj {w a b : Nat} (h : padNum w a = padNum w b) : a = b := by
  have := congrArg digitsToNat h
  rwa [digitsToNat_padNum, digitsToNat_padNum] at this

theorem natDigits_length_le {n w : Nat} (h : n < 10 ^ w) :
    (natDigits n).length ≤ w := by
  unfold natDigits
  rw [List.length_map, List.length_reverse]
  rcases Nat.eq_zero_or_pos n with h0 | h0
  · subst h0; simp
  · rw [Nat.digits_len 10 n (by norm_num) (by omega)]
    have := Nat.log_lt_of_lt_pow (by omega : n ≠ 0) h
    omega

theorem padNum_length {w n : Nat} (h : n < 10 ^ w) : (padNum w n).length = w := by
  unfold padNum
  rw [List.leftpad_length]
  have := natDigits_length_le h
  omega

theorem padNum_all_digits (w n : Nat) : (padNum w n).all pyIsDigit = true := by
  unfold padNum List.leftpad
  rw [List.all_append]
  refine Bool.and_eq_true_iff.mpr ⟨?_, ?_⟩
  · rw [List.all_eq_true]
    intro c hc
    rw [List.eq_of_mem_replicate hc]
    decide
  · rw [List.all_eq_true]
    unfold natDigits
    intro c hc
    rcases List.mem_map.mp hc with ⟨d, hdm, hdc⟩
    have hd : d < 10 := Nat.digits_lt_base (by norm_num) (List.mem_reverse.mp hdm)
    rw [← hdc]
    simpa using pyIsDigit_digitChar hd

/-- C8.  Under the field bounds `datetime` guarantees (four-digit year,
two-digit month/day/hour/minute/second, microseconds below one million),
every generated job name has the literal shape
prefix, dash, eight digits, dash, six digits, dash, six digits (the last
being the microsecond count zero-padded to width six); and the generator is
injective in the microsecond field for two instants equal in all other
fields. -/
theorem unit_name_spec :
    (∀ (pfx : String) (ts : Timestamp),
      ts.year < 10000 → ts.month < 100 → ts.day < 100 → ts.hour < 100 →
      ts.minute < 100 → ts.second < 100 → ts.microsecond < 1000000 →
      ∃ d8 d6a d6b : List Char,
        (unit_name pfx ts).data
          = pfx.data ++ '-' :: (d8 ++ '-' :: (d6a ++ '-' :: d6b))
        ∧ d8.length = 8 ∧ d6a.length = 6 ∧ d6b.length = 6
        ∧ (d8 ++ (d6a ++ d6b)).all pyIsDigit = true)
    ∧ (∀ (pfx : String) (t1 t2 : Timestamp),
        t1.year = t2.year → t1.month = t2.month → t1.day = t2.day →
        t1.hour = t2.hour → t1.minute = t2.minute → t1.second = t2.second →
        unit_name pfx t1 = unit_name pfx t2 →
        t1.microsecond = t2.microsecond) := by
  constructor
  · intro pfx ts hy hmo hd hh hmi hs hus
    refine ⟨padNum 4 ts.year ++ (padNum 2 ts.month ++ padNum 2 ts.day),
      padNum 2 ts.hour ++ (padNum 2 ts.minute ++ padNum 2 ts.second),
      padNum 6 ts.microsecond, rfl, ?_, ?_, ?_, ?_⟩
    · rw [List.length_append, List.length_append,
        padNum_length (by simpa using hy), padNum_length (by simpa using hmo),
        padNum_length (by simpa using hd)]
    · rw [List.length_append, List.length_append,
        padNum_length (by simpa using hh), padNum_length (by simpa using hmi),
        padNum_length (by simpa using hs)]
    · exact padNum_length (by simpa using hus)
    · simp [List.all_append, padNum_all_digits]
  · intro pfx t1 t2 h1 h2 h3 h4 h5 h6 heq
    have hd : pfx.data ++ ('-' ::
        ((padNum 4 t1.year ++ (padNum 2 t1.month ++ padNum 2 t1.day)) ++ ('-' ::
        ((padNum 2 t1.hour ++ (padNum 2 t1.minute ++ padNum 2 t1.second)) ++ ('-' ::
        padNum 6 t1.microsecond)))))
        = pfx.data ++ ('-' ::
        ((padNum 4 t2.year ++ (padNum 2 t2.month ++ padNum 2 t2.day)) ++ ('-' ::
        ((padNum 2 t2.hour ++ (padNum 2 t2.minute ++ padNum 2 t2.second)) ++ ('-' ::
        padNum 6 t2.microsecond))))) := congrArg String.data heq
    rw [h1, h2, h3, h4, h5, h6] at hd
    simp only [List.append_right_inj, List.cons.injEq, true_and] at hd
    exact padNum_inj hd

/-- C8 witness: a concrete timestamp within the datetime bounds has a
well-formed name, and the injectivity implication applied reflexively. -/
theorem unit_name_spec_witness :
    (∃ d8 d6a d6b : List Char,
      (unit_name ("remindme") ⟨2026, 1, 15, 15, 0, 0, 123456⟩).data
        = ("remindme").data ++ '-' :: (d8 ++ '-' :: (d6a ++ '-' :: d6b))
      ∧ d8.length = 8 ∧ d6a.length = 6 ∧ d6b.length = 6
      ∧ (d8 ++ (d6a ++ d6b)).all pyIsDigit = true)
    ∧ (⟨2026, 1, 15, 15, 0, 0, 123456⟩ : Timestamp).microsecond
        = (⟨2026, 1, 15, 15, 0, 0, 123456⟩ : Timestamp).microsecond :=
  ⟨unit_name_spec.1 ("remindme") ⟨2026, 1, 15, 15, 0, 0, 123456⟩ (by decide)
      (by decide) (by decide) (by decide) (by decide) (by decide) (by decide),
    unit_name_spec.2 ("remindme") ⟨2026, 1, 15, 15, 0, 0, 123456⟩
      ⟨2026, 1, 15, 15, 0, 0, 123456⟩ rfl rfl rfl rfl rfl rfl rfl⟩

end Remindme
